import Mathlib

/-!
Shallow embedding of the `nft_key` chain-key-token contract
(`src/nft_key/src/lib.rs`, with the deposit guard from `src/lib/src/utils.rs`),
together with boundary models of its external collaborators (token registry,
storage accounting, external signer), and proofs of the specified properties.

Conventions:
* `u32` values are `Nat` with explicit bounds checks where the source checks
  them (`checked_add`, `str::parse::<u32>`).
* `near_sdk::collections::UnorderedMap` is an association list with
  lookup/insert/erase helpers (`alGet`, `alInsert`, `alErase`).
* A contract method that can panic/reject is a function into `Except CkErr _`;
  on the NEAR runtime a panic rolls back every state write the method made in
  the same step, which the `Except` embedding reflects by returning no state
  in the error case.
* Asynchronous cross-contract promises are modelled by returning a description
  of the outgoing request; the callback is a separate function taking the
  remote result as an explicit `Except` argument.
-/

namespace NftKey

abbrev AccountId := String

abbrev TokenId := String

/-- Upper bound of `u32`: 2^32. -/
def U32_LIMIT : Nat := 4294967296

/-- Association-list lookup, modelling `UnorderedMap::get`. -/
def alGet {α β : Type} [DecidableEq α] (k : α) : List (α × β) → Option β
  | [] => none
  | (a, b) :: l => if a = k then some b else alGet k l

/-- Association-list key removal, modelling the state effect of
`UnorderedMap::remove` (the removed value is read with `alGet` first). -/
def alErase {α β : Type} [DecidableEq α] (k : α) : List (α × β) → List (α × β)
  | [] => []
  | (a, b) :: l => if a = k then alErase k l else (a, b) :: alErase k l

/-- Association-list insert/overwrite, modelling `UnorderedMap::insert`. -/
def alInsert {α β : Type} [DecidableEq α] (k : α) (v : β) (l : List (α × β)) :
    List (α × β) :=
  (k, v) :: alErase k l

/-- Decimal accumulation of a digit list, failing on a non-digit character. -/
def parseDigits (cs : List Char) : Option Nat :=
  cs.foldl
    (fun acc c =>
      acc.bind fun n => if c.isDigit then some (n * 10 + (c.toNat - 48)) else none)
    (some 0)

/-- Model of Rust `str::parse::<u32>` as used on token-id strings: an optional
leading plus sign, then one or more decimal digits, rejecting values that do
not fit in 32 bits. -/
def parseU32 (s : String) : Option Nat :=
  let cs := s.toList
  let cs := if cs.head? = some '+' then cs.tail else cs
  if cs.isEmpty then none
  else (parseDigits cs).bind fun n => if n < U32_LIMIT then some n else none

/-- Per-token key data (`KeyData` in the source): the delegate → approval-id
map and the key version fixed at mint time. -/
structure KeyData where
  approvals : List (AccountId × Nat)
  key_version : Nat
deriving DecidableEq

/-- Contract state (`NftKeyContract`), extended with the owner map of the
underlying NEP-171 registry. The registry is an external collaborator
(near_sdk_contract_tools, not under src/); modelled from the spec it answers
`token_owner` queries and stores one owner per minted token id. -/
structure NftKeyState where
  next_id : Nat
  signer_contract_id : AccountId
  key_data : List (Nat × KeyData)
  owners : List (TokenId × AccountId)
deriving DecidableEq

/-- Host-environment inputs of one call: `env::predecessor_account_id` and
`env::attached_deposit` (in yoctoNEAR). -/
structure CallEnv where
  predecessor : AccountId
  attached_deposit : Nat
deriving DecidableEq

/-- Modelled from the spec: the StorageAccounting collaborator's view —
registered storage balances (`storage_balance_of`) and the current storage
usage (`env::storage_usage`). -/
structure StorageEnv where
  registered : List (AccountId × Nat)
  storage_usage : Nat
deriving DecidableEq

/-- Modelled from the spec: the request forwarded to the external
KeyCustodyService's `sign` method — payload bytes, derivation path string and
key version (`SignRequest` lives in the lib crate, absent from src/). -/
structure SignRequest where
  payload : List Nat
  path : String
  key_version : Nat
deriving DecidableEq

/-- Modelled from the spec: the external signer's result type (`SignResult`
lives in the lib crate, absent from src/); its contents are never inspected
by this contract, so it is kept abstract as a wrapped string. -/
structure SignResult where
  raw : String
deriving DecidableEq

/-- Rejection reasons of the embedded methods (each corresponds to a
`require!`/`expect_or_reject`/`unwrap` in the source or in a collaborator). -/
inductive CkErr
  | insufficientDeposit
  | invalidTokenId
  | missingKeyData
  | unauthorized
  | notOwner
  | idOverflow
  | unregistered
  | remoteFailure
  | tokenExists
  | storageAccounting
  | inconsistentApproval
  | privateMethod
deriving DecidableEq

/-- `generate_id` (lib.rs:67-71): returns `next_id` and advances the shared
counter with `checked_add(1)`, rejecting on `u32` overflow. -/
def generate_id (s : NftKeyState) : Except CkErr (Nat × NftKeyState) :=
  if s.next_id + 1 < U32_LIMIT then
    Except.ok (s.next_id, { s with next_id := s.next_id + 1 })
  else Except.error CkErr.idOverflow

/-- Outstanding mint: the borsh arguments `mint` (lib.rs:73-87) passes to its
callback alongside the `latest_key_version` promise. -/
structure PendingMint where
  id : Nat
  predecessor : AccountId
  storage_usage_start : Nat
deriving DecidableEq

/-- `mint` (lib.rs:73-87): snapshots storage usage, reserves the next global
identifier synchronously, requires the caller to be storage-registered, and
issues the asynchronous `latest_key_version` request (represented by the
returned `PendingMint`). -/
def mint (s : NftKeyState) (env : CallEnv) (storage : StorageEnv) :
    Except CkErr (NftKeyState × PendingMint) :=
  let storage_usage_start := storage.storage_usage
  match generate_id s with
  | Except.error e => Except.error e
  | Except.ok (id, s1) =>
    if (alGet env.predecessor storage.registered).isSome then
      Except.ok (s1,
        { id := id, predecessor := env.predecessor
          storage_usage_start := storage_usage_start })
    else Except.error CkErr.unregistered

/-- Modelled from the spec: `mint_with_metadata` of the external TokenRegistry
collaborator (near_sdk_contract_tools NFT ledger, not under src/) records the
receiver as owner of the fresh token id; it fails if the token id is already
taken. -/
def mint_with_metadata (s : NftKeyState) (token_id : TokenId)
    (owner_id : AccountId) : Except CkErr NftKeyState :=
  match alGet token_id s.owners with
  | some _ => Except.error CkErr.tokenExists
  | none => Except.ok { s with owners := alInsert token_id owner_id s.owners }

/-- Modelled from the spec: `storage_accounting` of the external
StorageAccounting collaborator reconciles the storage growth since the
snapshot against the payer's registered balance, failing when the balance
does not cover it. -/
def storage_accounting (storage : StorageEnv) (payer : AccountId)
    (storage_usage_start : Nat) : Except CkErr Unit :=
  match alGet payer storage.registered with
  | none => Except.error CkErr.storageAccounting
  | some balance =>
    if storage.storage_usage - storage_usage_start ≤ balance then Except.ok ()
    else Except.error CkErr.storageAccounting

/-- `mint_callback` (lib.rs:89-113): unwraps the remote key version (aborting
on remote failure before any state write), commits the `KeyData` record with
an empty approval map, mints the registry token and settles storage
accounting; returns the token id. -/
def mint_callback (s : NftKeyState) (storage : StorageEnv) (id : Nat)
    (predecessor : AccountId) (storage_usage_start : Nat)
    (result : Except Unit Nat) : Except CkErr (NftKeyState × Nat) :=
  match result with
  | Except.error _ => Except.error CkErr.remoteFailure
  | Except.ok key_version =>
    let s1 := { s with
      key_data := alInsert id { approvals := [], key_version := key_version } s.key_data }
    match mint_with_metadata s1 (toString id) predecessor with
    | Except.error e => Except.error e
    | Except.ok s2 =>
      match storage_accounting storage predecessor storage_usage_start with
      | Except.error e => Except.error e
      | Except.ok _ => Except.ok (s2, id)

/-- `ckt_revoke_all_unchecked` (lib.rs:115-127): parses the token id, and if
key data exists, clears the whole approval map, returning the number of
entries removed (0 when there is no key data). No ownership check. -/
def ckt_revoke_all_unchecked (s : NftKeyState) (token_id : TokenId) :
    Except CkErr (NftKeyState × Nat) :=
  match parseU32 token_id with
  | none => Except.error CkErr.invalidTokenId
  | some id =>
    match alGet id s.key_data with
    | none => Except.ok (s, 0)
    | some kd =>
      let len := kd.approvals.length
      Except.ok
        ({ s with key_data := alInsert id { kd with approvals := [] } s.key_data }, len)

/-- Modelled from the spec: the external TokenRegistry's own transfer logic
mutates only the ownership mapping (the registry is the excluded collaborator
that owns token ↔ owner bookkeeping). -/
def registry_transfer_core (s : NftKeyState) (token_id : TokenId)
    (receiver_id : AccountId) : NftKeyState :=
  { s with owners := alInsert token_id receiver_id s.owners }

/-- `Hook<NftKeyContract, Nep171Transfer>::hook` (lib.rs:361-372): before the
registry's transfer logic `f` runs, unconditionally clear the transferred
token's approvals with the unchecked bulk-clear. -/
def transfer_hook (s : NftKeyState) (token_id : TokenId)
    (f : NftKeyState → NftKeyState) : Except CkErr NftKeyState :=
  match ckt_revoke_all_unchecked s token_id with
  | Except.error e => Except.error e
  | Except.ok (s1, _) => Except.ok (f s1)

/-- A full NEP-171 transfer of `token_id` to `receiver_id`: the hook wrapped
around the registry's core transfer. -/
def nep171_transfer (s : NftKeyState) (token_id : TokenId)
    (receiver_id : AccountId) : Except CkErr NftKeyState :=
  transfer_hook s token_id fun s1 => registry_transfer_core s1 token_id receiver_id

/-- The `.zip(approval_id).map_or(false, |(actual, expected)| actual == expected)`
test of `ckt_sign_hash` (lib.rs:155-159): true only when a stored approval id
exists, a caller-supplied id exists, and the two are equal. -/
def zipMatch (stored supplied : Option Nat) : Bool :=
  match stored, supplied with
  | some actual, some expected => actual == expected
  | _, _ => false

/-- `make_path_string` (lib.rs:198-200): `format!` of the token-id string, a
comma, and the sub-path. -/
def make_path_string (token_id path : String) : String :=
  token_id ++ "," ++ path

/-- `ckt_sign_hash` (lib.rs:133-178): requires ≥ 1 yoctoNEAR attached
(`assert_gt_one_yocto_near`, utils.rs:3-8), parses the token id, defaults the
path, requires key data, authorizes the caller (owner, or stored approval
equal to the supplied `approval_id`), and forwards the signature request to
the signer (returned as the `SignRequest`). The contract state is threaded
through unchanged, mirroring that the method body performs no state write. -/
def ckt_sign_hash (s : NftKeyState) (env : CallEnv) (token_id : TokenId)
    (path : Option String) (payload : List Nat) (approval_id : Option Nat) :
    Except CkErr (NftKeyState × SignRequest) :=
  if env.attached_deposit < 1 then Except.error CkErr.insufficientDeposit
  else
    match parseU32 token_id with
    | none => Except.error CkErr.invalidTokenId
    | some id =>
      let path := path.getD ""
      let expected_owner_id := env.predecessor
      let actual_owner_id := alGet token_id s.owners
      match alGet id s.key_data with
      | none => Except.error CkErr.missingKeyData
      | some key_data =>
        if (actual_owner_id == some expected_owner_id)
            || zipMatch (alGet env.predecessor key_data.approvals) approval_id then
          Except.ok (s,
            { payload := payload
              path := make_path_string token_id path
              key_version := key_data.key_version })
        else Except.error CkErr.unauthorized

/-- `sign_callback` (lib.rs:205-220): a `#[private]` method, so the runtime
rejects every caller other than the contract account itself. The body reads
the invocation's own attached deposit and predecessor, issues a transfer of
the whole deposit back to that predecessor when it is positive, and then
unwraps the remote result. On the `Err` path the `unwrap` panic aborts the
invocation, which on NEAR discards every action it created in the same step
(the file's rollback convention), so the transfer survives only on the `Ok`
path; the surviving transfer actions are returned alongside the result. -/
def sign_callback (current_account : AccountId) (env : CallEnv)
    (result : Except Unit SignResult) :
    Except CkErr (List (AccountId × Nat) × SignResult) :=
  if env.predecessor = current_account then
    let actions :=
      if env.attached_deposit > 0 then [(env.predecessor, env.attached_deposit)] else []
    match result with
    | Except.ok r => Except.ok (actions, r)
    | Except.error _ => Except.error CkErr.remoteFailure
  else Except.error CkErr.privateMethod

/-- The invocation environment of the `sign_callback` receipt chained by
`ckt_sign_hash` (lib.rs:163-177): the contract schedules the callback on
itself (`Self::ext(env::current_account_id())`) and attaches no deposit to
it, so the callback executes with the contract account as its predecessor
and an attached deposit of zero — the whole escrow was already forwarded to
the signer by `with_attached_deposit(env::attached_deposit())` at
lib.rs:164-165. -/
def sign_callback_env (current_account : AccountId) : CallEnv :=
  { predecessor := current_account, attached_deposit := 0 }

/-- `ckt_approve_callback` (lib.rs:222-239): when the receiver's reply is
exactly `Ok(false)` the method returns the approval id and writes nothing;
in every other case (acceptance or remote failure) it removes the delegate's
approval entry and requires the ejected id to equal the one issued. -/
def ckt_approve_callback (s : NftKeyState) (token_id : Nat)
    (account_id : AccountId) (approval_id : Nat) (result : Except Unit Bool) :
    Except CkErr (NftKeyState × Option Nat) :=
  match result with
  | Except.ok false => Except.ok (s, some approval_id)
  | _ =>
    match alGet token_id s.key_data with
    | none => Except.error CkErr.missingKeyData
    | some kd =>
      let ejected_id := alGet account_id kd.approvals
      let s1 := { s with
        key_data := alInsert token_id { kd with approvals := alErase account_id kd.approvals } s.key_data }
      if ejected_id = some approval_id then Except.ok (s1, none)
      else Except.error CkErr.inconsistentApproval

/-- `ckt_revoke_callback` (lib.rs:241-242): an empty body on `&self`; performs
no state mutation at all. -/
def ckt_revoke_callback (s : NftKeyState) : NftKeyState := s

/-- `require_is_token_owner` (lib.rs:244-247) as a test: the registry's
current owner of `token_id` is exactly the predecessor. -/
def require_is_token_owner (s : NftKeyState) (predecessor : AccountId)
    (token_id : TokenId) : Bool :=
  alGet token_id s.owners == some predecessor

/-- `approve` (lib.rs:249-260): draws a fresh id from the shared counter,
requires key data, and records `approvals[account_id] = approval_id`. -/
def approve (s : NftKeyState) (token_id : Nat) (account_id : AccountId) :
    Except CkErr (NftKeyState × Nat) :=
  match generate_id s with
  | Except.error e => Except.error e
  | Except.ok (approval_id, s1) =>
    match alGet token_id s1.key_data with
    | none => Except.error CkErr.missingKeyData
    | some kd =>
      Except.ok
        ({ s1 with
            key_data := alInsert token_id
              { kd with approvals := alInsert account_id approval_id kd.approvals }
              s1.key_data },
          approval_id)

/-- `revoke` (lib.rs:262-268): if key data exists, removes the delegate's
approval entry (re-inserting the record either way) and returns whatever id
was removed; a missing record or missing entry yields `none`. -/
def revoke (s : NftKeyState) (token_id : Nat) (account_id : AccountId) :
    NftKeyState × Option Nat :=
  match alGet token_id s.key_data with
  | none => (s, none)
  | some kd =>
    let removed := alGet account_id kd.approvals
    ({ s with
        key_data := alInsert token_id
          { kd with approvals := alErase account_id kd.approvals } s.key_data },
      removed)

/-- `ckt_approve` (lib.rs:273-280): exactly 1 yoctoNEAR (`assert_one_yocto`),
owner-only, then `approve`. -/
def ckt_approve (s : NftKeyState) (env : CallEnv) (token_id : TokenId)
    (account_id : AccountId) : Except CkErr (NftKeyState × Nat) :=
  if env.attached_deposit ≠ 1 then Except.error CkErr.insufficientDeposit
  else if require_is_token_owner s env.predecessor token_id then
    match parseU32 token_id with
    | none => Except.error CkErr.invalidTokenId
    | some id => approve s id account_id
  else Except.error CkErr.notOwner

/-- The asynchronous `ckt_on_approved` notice `ckt_approve_call` sends to the
delegate's receiver, plus the borsh arguments of the reconciliation
callback. -/
structure ApprovalNotice where
  grantor : AccountId
  token_id : TokenId
  approval_id : Nat
  msg : String
deriving DecidableEq

/-- `ckt_approve_call` (lib.rs:282-304): as `ckt_approve`, then sends the
`ckt_on_approved` notice to the delegate's receiver with the fresh approval
id, to be reconciled by `ckt_approve_callback`. -/
def ckt_approve_call (s : NftKeyState) (env : CallEnv) (token_id : TokenId)
    (account_id : AccountId) (msg : Option String) :
    Except CkErr (NftKeyState × ApprovalNotice) :=
  if env.attached_deposit ≠ 1 then Except.error CkErr.insufficientDeposit
  else if require_is_token_owner s env.predecessor token_id then
    match parseU32 token_id with
    | none => Except.error CkErr.invalidTokenId
    | some id =>
      match approve s id account_id with
      | Except.error e => Except.error e
      | Except.ok (s1, approval_id) =>
        Except.ok (s1,
          { grantor := env.predecessor, token_id := token_id
            approval_id := approval_id, msg := msg.getD "" })
  else Except.error CkErr.notOwner

/-- `ckt_revoke` (lib.rs:306-313): exactly 1 yoctoNEAR, owner-only, then
`revoke` with the returned id discarded. -/
def ckt_revoke (s : NftKeyState) (env : CallEnv) (token_id : TokenId)
    (account_id : AccountId) : Except CkErr NftKeyState :=
  if env.attached_deposit ≠ 1 then Except.error CkErr.insufficientDeposit
  else if require_is_token_owner s env.predecessor token_id then
    match parseU32 token_id with
    | none => Except.error CkErr.invalidTokenId
    | some id => Except.ok (revoke s id account_id).1
  else Except.error CkErr.notOwner

/-- The asynchronous `ckt_on_revoked` notice sent by `ckt_revoke_call`. -/
structure RevokeNotice where
  grantor : AccountId
  token_id : TokenId
  approval_id : Nat
  msg : String
deriving DecidableEq

/-- `ckt_revoke_call` (lib.rs:315-342): exactly 1 yoctoNEAR, owner-only,
removes the approval synchronously via `revoke`, and only if an id was
actually removed sends the informational `ckt_on_revoked` notice (whose
continuation is the no-op `ckt_revoke_callback`). -/
def ckt_revoke_call (s : NftKeyState) (env : CallEnv) (token_id : TokenId)
    (account_id : AccountId) (msg : Option String) :
    Except CkErr (NftKeyState × Option RevokeNotice) :=
  if env.attached_deposit ≠ 1 then Except.error CkErr.insufficientDeposit
  else if require_is_token_owner s env.predecessor token_id then
    match parseU32 token_id with
    | none => Except.error CkErr.invalidTokenId
    | some id =>
      match revoke s id account_id with
      | (s1, some revoked_approval_id) =>
        Except.ok (s1, some
          { grantor := env.predecessor, token_id := token_id
            approval_id := revoked_approval_id, msg := msg.getD "" })
      | (s1, none) => Except.ok (s1, none)
  else Except.error CkErr.notOwner

/-- `ckt_approval_id_for` (lib.rs:352-358): read-only lookup of the stored
approval id for `(token_id, account_id)`. -/
def ckt_approval_id_for (s : NftKeyState) (token_id : TokenId)
    (account_id : AccountId) : Except CkErr (Option Nat) :=
  match parseU32 token_id with
  | none => Except.error CkErr.invalidTokenId
  | some id =>
    Except.ok ((alGet id s.key_data).bind fun kd => alGet account_id kd.approvals)

/-- Tag for identifiers issued by the shared counter: token id from a mint,
or approval id from an approve. -/
inductive IssuedKind
  | token
  | approval
deriving DecidableEq

/-- One counter-consuming operation of an interleaved mint/approve trace. -/
inductive IdOp
  | mintOp (env : CallEnv) (storage : StorageEnv)
  | approveOp (token_id : Nat) (account_id : AccountId)

/-- Runs one trace operation as its own transaction: on rejection the state is
rolled back and no identifier is issued. -/
def runIdOp (s : NftKeyState) : IdOp → NftKeyState × Option (IssuedKind × Nat)
  | IdOp.mintOp env storage =>
    match mint s env storage with
    | Except.ok (s1, p) => (s1, some (IssuedKind.token, p.id))
    | Except.error _ => (s, none)
  | IdOp.approveOp token_id account_id =>
    match approve s token_id account_id with
    | Except.ok (s1, approval_id) => (s1, some (IssuedKind.approval, approval_id))
    | Except.error _ => (s, none)

/-- Runs a trace of operations, collecting the issued identifiers in order. -/
def runTrace (s : NftKeyState) : List IdOp → NftKeyState × List (IssuedKind × Nat)
  | [] => (s, [])
  | op :: ops =>
    let step := runIdOp s op
    let rest := runTrace step.1 ops
    (rest.1, step.2.toList ++ rest.2)

/-- The identifiers issued along a trace, in issue order, with their kinds. -/
def issuedIds (s : NftKeyState) (ops : List IdOp) : List (IssuedKind × Nat) :=
  (runTrace s ops).2

/-- The token identifiers issued by the mints of a trace, in issue order. -/
def mintedIds (s : NftKeyState) (ops : List IdOp) : List Nat :=
  ((issuedIds s ops).filter fun x => x.1 = IssuedKind.token).map fun x => x.2

/-- The approval identifiers issued by the approves of a trace. -/
def approvalIds (s : NftKeyState) (ops : List IdOp) : List Nat :=
  ((issuedIds s ops).filter fun x => x.1 = IssuedKind.approval).map fun x => x.2

section AssocLemmas

variable {α β : Type} [DecidableEq α]

theorem alGet_alErase_self (k : α) (l : List (α × β)) :
    alGet k (alErase k l) = none := by
  induction l with
  | nil => rfl
  | cons p l ih =>
    obtain ⟨a, b⟩ := p
    by_cases h : a = k
    · simp [alErase, h, ih]
    · simp [alErase, alGet, h, ih]

theorem alErase_alErase (k : α) (l : List (α × β)) :
    alErase k (alErase k l) = alErase k l := by
  induction l with
  | nil => rfl
  | cons p l ih =>
    obtain ⟨a, b⟩ := p
    by_cases h : a = k
    · simp [alErase, h, ih]
    · simp [alErase, h, ih]

theorem alGet_alInsert_self (k : α) (v : β) (l : List (α × β)) :
    alGet k (alInsert k v l) = some v := by
  simp [alInsert, alGet]

theorem alInsert_alInsert (k : α) (v w : β) (l : List (α × β)) :
    alInsert k w (alInsert k v l) = alInsert k w l := by
  simp [alInsert, alErase, alErase_alErase]

theorem alErase_alInsert (k : α) (v : β) (l : List (α × β)) :
    alErase k (alInsert k v l) = alErase k l := by
  simp [alInsert, alErase, alErase_alErase]

end AssocLemmas

/-- Characterization of `ckt_sign_hash` once the deposit, token-id and
key-data guards pass: the outcome is decided by the owner/approval test and
carries the derivation path and key version. -/
theorem ckt_sign_hash_spec (s : NftKeyState) (env : CallEnv) (token_id : TokenId)
    (path : Option String) (payload : List Nat) (approval_id : Option Nat)
    (id : Nat) (kd : KeyData)
    (hdep : 1 ≤ env.attached_deposit)
    (hid : parseU32 token_id = some id)
    (hkd : alGet id s.key_data = some kd) :
    ckt_sign_hash s env token_id path payload approval_id =
      if (alGet token_id s.owners == some env.predecessor)
          || zipMatch (alGet env.predecessor kd.approvals) approval_id then
        Except.ok (s,
          { payload := payload
            path := make_path_string token_id (path.getD "")
            key_version := kd.key_version })
      else Except.error CkErr.unauthorized := by
  have hlt : ¬ env.attached_deposit < 1 := by omega
  simp only [ckt_sign_hash, if_neg hlt, hid, hkd]

/-- Sample contract state: token "0" owned by alice, with stored approvals
bob ↦ 1 and carol ↦ 2, key version 7, counter at 5. -/
def sampleState : NftKeyState :=
  { next_id := 5
    signer_contract_id := "signer"
    key_data := [(0, { approvals := [("bob", 1), ("carol", 2)], key_version := 7 })]
    owners := [("0", "alice")] }

/-- C1: for a `ckt_sign_hash` call with sufficient attached deposit and a
valid token id (parsable, with key data present), the authorization check
succeeds if and only if the caller is the current token owner or the caller
has a stored approval whose identifier exactly equals the caller-supplied
`approval_id`; otherwise the call fails with `Unauthorized`. -/
theorem ckt_sign_hash_authorization (s : NftKeyState) (env : CallEnv)
    (token_id : TokenId) (path : Option String) (payload : List Nat)
    (approval_id : Option Nat) (id : Nat) (kd : KeyData)
    (hdep : 1 ≤ env.attached_deposit)
    (hid : parseU32 token_id = some id)
    (hkd : alGet id s.key_data = some kd) :
    ((∃ out, ckt_sign_hash s env token_id path payload approval_id = Except.ok out)
      ↔ (alGet token_id s.owners = some env.predecessor
          ∨ zipMatch (alGet env.predecessor kd.approvals) approval_id = true))
    ∧ (¬ (alGet token_id s.owners = some env.predecessor
          ∨ zipMatch (alGet env.predecessor kd.approvals) approval_id = true)
        → ckt_sign_hash s env token_id path payload approval_id
            = Except.error CkErr.unauthorized) := by
  rw [ckt_sign_hash_spec s env token_id path payload approval_id id kd hdep hid hkd]
  by_cases hc : (alGet token_id s.owners = some env.predecessor
      ∨ zipMatch (alGet env.predecessor kd.approvals) approval_id = true)
  · have hb : ((alGet token_id s.owners == some env.predecessor)
        || zipMatch (alGet env.predecessor kd.approvals) approval_id) = true := by
      simp [Bool.or_eq_true, hc]
    simp [hb, hc]
  · have hb : ((alGet token_id s.owners == some env.predecessor)
        || zipMatch (alGet env.predecessor kd.approvals) approval_id) = false := by
      simp only [Bool.or_eq_false_iff, beq_eq_false_iff_ne, ne_eq]
      push_neg at hc
      exact ⟨hc.1, by simp [hc.2]⟩
    simp [hb, hc]

/-- Closed instance of C1: on `sampleState`, the owner signs without an
approval id; bob signs with his exact stored id 1; bob with a wrong id (2)
and carol with no id both fail with `Unauthorized`. -/
theorem ckt_sign_hash_authorization_witness :
    (∃ out, ckt_sign_hash sampleState ⟨"alice", 1⟩ "0" none [3] none = Except.ok out)
    ∧ (∃ out, ckt_sign_hash sampleState ⟨"bob", 1⟩ "0" none [3] (some 1) = Except.ok out)
    ∧ ckt_sign_hash sampleState ⟨"bob", 1⟩ "0" none [3] (some 2)
        = Except.error CkErr.unauthorized
    ∧ ckt_sign_hash sampleState ⟨"carol", 1⟩ "0" none [3] none
        = Except.error CkErr.unauthorized := by
  refine ⟨?_, ?_, ?_, ?_⟩
  · exact (ckt_sign_hash_authorization sampleState ⟨"alice", 1⟩ "0" none [3] none 0
      { approvals := [("bob", 1), ("carol", 2)], key_version := 7 }
      (by decide) (by decide) (by decide)).1.mpr (by decide)
  · exact (ckt_sign_hash_authorization sampleState ⟨"bob", 1⟩ "0" none [3] (some 1) 0
      { approvals := [("bob", 1), ("carol", 2)], key_version := 7 }
      (by decide) (by decide) (by decide)).1.mpr (by decide)
  · exact (ckt_sign_hash_authorization sampleState ⟨"bob", 1⟩ "0" none [3] (some 2) 0
      { approvals := [("bob", 1), ("carol", 2)], key_version := 7 }
      (by decide) (by decide) (by decide)).2 (by decide)
  · exact (ckt_sign_hash_authorization sampleState ⟨"carol", 1⟩ "0" none [3] none 0
      { approvals := [("bob", 1), ("carol", 2)], key_version := 7 }
      (by decide) (by decide) (by decide)).2 (by decide)

/-- C9: every signature request a successful `ckt_sign_hash` forwards carries
the derivation path `"{token_id},{path}"`, with an absent path defaulting to
the empty string, and carries the token's stored key version. -/
theorem ckt_sign_hash_path_format (s : NftKeyState) (env : CallEnv)
    (token_id : TokenId) (path : Option String) (payload : List Nat)
    (approval_id : Option Nat) (s' : NftKeyState) (req : SignRequest)
    (h : ckt_sign_hash s env token_id path payload approval_id
        = Except.ok (s', req)) :
    req.path = token_id ++ "," ++ path.getD "" ∧ req.payload = payload := by
  unfold ckt_sign_hash at h
  split at h
  · exact absurd h (by simp)
  · split at h
    · exact absurd h (by simp)
    · split at h
      · exact absurd h (by simp)
      · dsimp only at h
        split at h
        · cases h
          exact ⟨rfl, rfl⟩
        · exact absurd h (by simp)

/-- Closed instance of C9: `sign_hash` on token "0" with an empty path by an
approved caller forwards the path `"0,"`. -/
theorem ckt_sign_hash_path_format_witness :
    ∃ s' req, ckt_sign_hash sampleState ⟨"bob", 1⟩ "0" none [3] (some 1)
        = Except.ok (s', req) ∧ req.path = "0," := by
  refine ⟨sampleState, _, rfl, ?_⟩
  exact (ckt_sign_hash_path_format sampleState ⟨"bob", 1⟩ "0" none [3] (some 1)
    sampleState _ rfl).1

/-- C10: `ckt_sign_hash` never mutates the persistent contract state: on
success the threaded-through state is exactly the input state (and every
rejection carries no state at all), so signing with an approval does not
consume or alter it. -/
theorem ckt_sign_hash_frame (s : NftKeyState) (env : CallEnv)
    (token_id : TokenId) (path : Option String) (payload : List Nat)
    (approval_id : Option Nat) (s' : NftKeyState) (req : SignRequest)
    (h : ckt_sign_hash s env token_id path payload approval_id
        = Except.ok (s', req)) :
    s' = s := by
  unfold ckt_sign_hash at h
  split at h
  · exact absurd h (by simp)
  · split at h
    · exact absurd h (by simp)
    · split at h
      · exact absurd h (by simp)
      · dsimp only at h
        split at h
        · cases h
          rfl
        · exact absurd h (by simp)

/-- Closed instance of C10: a successful approved signing on `sampleState`
returns the state unchanged, approvals included. -/
theorem ckt_sign_hash_frame_witness :
    ∃ req, ckt_sign_hash sampleState ⟨"bob", 1⟩ "0" none [3] (some 1)
        = Except.ok (sampleState, req) := by
  refine ⟨{ payload := [3], path := "0,", key_version := 7 }, ?_⟩
  have h : ckt_sign_hash sampleState ⟨"bob", 1⟩ "0" none [3] (some 1)
      = Except.ok (sampleState, { payload := [3], path := "0,", key_version := 7 }) := rfl
  have hs := ckt_sign_hash_frame sampleState ⟨"bob", 1⟩ "0" none [3] (some 1)
    sampleState { payload := [3], path := "0,", key_version := 7 } h
  exact h

/-- C4 exhibit: at the only reachable invocation environment of
`sign_callback` — the `#[private]` callback's predecessor is the contract
account itself and its attached deposit is zero, since `ckt_sign_hash`
forwards the whole escrow to the signer and attaches nothing to the callback
receipt — no refund transfer is ever issued: a successful remote result is
propagated with an empty action list, a failed one aborts the step before
any action survives, and even with a hypothetical positive deposit the `Err`
path's panic would discard the transfer. The escrow is never refunded to the
original caller. -/
theorem sign_callback_never_refunds_escrow :
    sign_callback "nft-key.testnet" (sign_callback_env "nft-key.testnet")
        (Except.ok ⟨"sig"⟩) = Except.ok ([], ⟨"sig"⟩)
    ∧ sign_callback "nft-key.testnet" (sign_callback_env "nft-key.testnet")
        (Except.error ()) = Except.error CkErr.remoteFailure
    ∧ sign_callback "nft-key.testnet" ⟨"nft-key.testnet", 5⟩
        (Except.error ()) = Except.error CkErr.remoteFailure :=
  ⟨rfl, rfl, rfl⟩

/-- The approval set the contract holds for numeric token id `id` (empty when
no key data exists). -/
def approvalsOf (s : NftKeyState) (id : Nat) : List (AccountId × Nat) :=
  ((alGet id s.key_data).map fun kd => kd.approvals).getD []

/-- C3: a NEP-171 transfer unconditionally clears all approvals of the
transferred token through the hook's unchecked bulk-clear, which runs before
the registry's ownership change; immediately after any transfer the token's
approval set is empty, however many approvals existed before, and with no
ownership check anywhere on the path. -/
theorem nep171_transfer_clears_approvals (s : NftKeyState) (token_id : TokenId)
    (receiver_id : AccountId) (id : Nat) (s' : NftKeyState)
    (hid : parseU32 token_id = some id)
    (h : nep171_transfer s token_id receiver_id = Except.ok s') :
    approvalsOf s' id = []
    ∧ s'.owners = alInsert token_id receiver_id s.owners := by
  unfold nep171_transfer transfer_hook ckt_revoke_all_unchecked at h
  simp only [hid] at h
  cases hkd : alGet id s.key_data with
  | none =>
    simp only [hkd] at h
    cases h
    refine ⟨?_, rfl⟩
    simp [approvalsOf, registry_transfer_core, hkd]
  | some kd =>
    simp only [hkd] at h
    cases h
    refine ⟨?_, rfl⟩
    simp [approvalsOf, registry_transfer_core, alGet_alInsert_self]

/-- Closed instance of C3: transferring token "0" of `sampleState` (which has
two approvals) to dave leaves an empty approval set. -/
theorem nep171_transfer_clears_approvals_witness :
    ∃ s', nep171_transfer sampleState "0" "dave" = Except.ok s'
      ∧ approvalsOf s' 0 = [] := by
  refine ⟨_, rfl, ?_⟩
  exact (nep171_transfer_clears_approvals sampleState "0" "dave" 0 _ (by decide) rfl).1

/-- Specification of a successful `generate_id`: it returns the current
counter value and advances only the counter. -/
theorem generate_id_ok (s : NftKeyState) (id : Nat) (s1 : NftKeyState)
    (h : generate_id s = Except.ok (id, s1)) :
    id = s.next_id ∧ s1 = { s with next_id := s.next_id + 1 } := by
  unfold generate_id at h
  split at h
  · cases h
    exact ⟨rfl, rfl⟩
  · exact absurd h (by simp)

/-- Specification of a successful `mint` step: the returned pending mint
carries the old counter value as the reserved token id, the counter is
advanced by one, and nothing else of the contract state changes in this
synchronous step. -/
theorem mint_ok_spec (s : NftKeyState) (env : CallEnv) (storage : StorageEnv)
    (s1 : NftKeyState) (p : PendingMint)
    (h : mint s env storage = Except.ok (s1, p)) :
    p.id = s.next_id ∧ s1.next_id = s.next_id + 1
    ∧ s1.key_data = s.key_data ∧ s1.owners = s.owners
    ∧ p.predecessor = env.predecessor
    ∧ p.storage_usage_start = storage.storage_usage := by
  unfold mint at h
  cases hg : generate_id s with
  | error e =>
    simp only [hg] at h
    exact absurd h (by simp)
  | ok pr =>
    obtain ⟨id, s2⟩ := pr
    obtain ⟨hpid, hps⟩ := generate_id_ok s id s2 hg
    simp only [hg] at h
    split at h
    · cases h
      subst hpid hps
      exact ⟨rfl, rfl, rfl, rfl, rfl, rfl⟩
    · exact absurd h (by simp)

/-- C5: `mint` reserves the next global identifier synchronously, before the
asynchronous key-custody request, creating no key record and no token in that
step; and if the remote call fails, `mint_callback` propagates the failure
before any state write, so the reserved identifier stays consumed and no
record is created in the callback step either. -/
theorem mint_reserves_id_failure_not_refunded (s : NftKeyState) (env : CallEnv)
    (storage : StorageEnv) (s1 : NftKeyState) (p : PendingMint)
    (h : mint s env storage = Except.ok (s1, p)) :
    p.id = s.next_id ∧ s1.next_id = s.next_id + 1
    ∧ s1.key_data = s.key_data ∧ s1.owners = s.owners
    ∧ ∀ e, mint_callback s1 storage p.id p.predecessor p.storage_usage_start
        (Except.error e) = Except.error CkErr.remoteFailure := by
  obtain ⟨h1, h2, h3, h4, _, _⟩ := mint_ok_spec s env storage s1 p h
  exact ⟨h1, h2, h3, h4, fun e => rfl⟩

/-- Closed instance of C5: minting from `sampleState` reserves id 5, advances
the counter to 6, and a failed key-version fetch leaves only that. -/
theorem mint_reserves_id_failure_not_refunded_witness :
    ∃ s1 p, mint sampleState ⟨"alice", 0⟩ ⟨[("alice", 100)], 10⟩ = Except.ok (s1, p)
      ∧ p.id = 5 ∧ s1.next_id = 6
      ∧ mint_callback s1 ⟨[("alice", 100)], 10⟩ p.id p.predecessor
          p.storage_usage_start (Except.error ()) = Except.error CkErr.remoteFailure := by
  refine ⟨_, _, rfl, ?_⟩
  have hspec := mint_reserves_id_failure_not_refunded sampleState ⟨"alice", 0⟩
    ⟨[("alice", 100)], 10⟩ _ _ rfl
  exact ⟨hspec.1, hspec.2.1, hspec.2.2.2.2 ()⟩

/-- C6: for an owner-authorized `ckt_revoke(T, D)`, the endpoint commits the
state of the internal `revoke`; `revoke` returns the stored approval id the
first time (`none` when the delegate had none, as a plain no-op), and running
it a second time returns `none` and leaves the state exactly as after the
first run. -/
theorem ckt_revoke_idempotent (s : NftKeyState) (env : CallEnv)
    (token_id : TokenId) (account_id : AccountId) (id : Nat)
    (hdep : env.attached_deposit = 1)
    (hown : require_is_token_owner s env.predecessor token_id = true)
    (hid : parseU32 token_id = some id) :
    ckt_revoke s env token_id account_id = Except.ok (revoke s id account_id).1
    ∧ (revoke s id account_id).2
        = ((alGet id s.key_data).bind fun kd => alGet account_id kd.approvals)
    ∧ revoke (revoke s id account_id).1 id account_id
        = ((revoke s id account_id).1, none) := by
  refine ⟨?_, ?_, ?_⟩
  · simp [ckt_revoke, hdep, hown, hid]
  · cases hkd : alGet id s.key_data with
    | none => simp [revoke, hkd]
    | some kd => simp [revoke, hkd]
  · cases hkd : alGet id s.key_data with
    | none => simp [revoke, hkd]
    | some kd =>
      simp only [revoke, hkd]
      simp [alGet_alInsert_self, alGet_alErase_self, alErase_alErase,
        alInsert_alInsert]

/-- Closed instance of C6: on `sampleState`, alice revokes bob; the first
`revoke` removes id 1, the second returns `none` with an identical state. -/
theorem ckt_revoke_idempotent_witness :
    ckt_revoke sampleState ⟨"alice", 1⟩ "0" "bob"
        = Except.ok (revoke sampleState 0 "bob").1
    ∧ (revoke sampleState 0 "bob").2 = some 1
    ∧ revoke (revoke sampleState 0 "bob").1 0 "bob"
        = ((revoke sampleState 0 "bob").1, none) := by
  have h := ckt_revoke_idempotent sampleState ⟨"alice", 1⟩ "0" "bob" 0
    rfl (by decide) (by decide)
  exact ⟨h.1, by decide, h.2.2⟩

/-- C7: an owner-authorized `ckt_revoke_call` removes the approval entry
synchronously, before the notice to the delegate's receiver is even described;
the committed state has `approval_id_for(T, D) = none`, and the notice's
continuation `ckt_revoke_callback` is the identity on the state, so the
removal is never reversed whatever the receiver returns. -/
theorem ckt_revoke_call_commits_before_notice (s : NftKeyState) (env : CallEnv)
    (token_id : TokenId) (account_id : AccountId) (msg : Option String)
    (id : Nat)
    (hdep : env.attached_deposit = 1)
    (hown : require_is_token_owner s env.predecessor token_id = true)
    (hid : parseU32 token_id = some id) :
    ∀ s' notice,
      ckt_revoke_call s env token_id account_id msg = Except.ok (s', notice) →
        s' = (revoke s id account_id).1
        ∧ ckt_approval_id_for s' token_id account_id = Except.ok none
        ∧ ckt_revoke_callback s' = s' := by
  intro s' notice h
  simp only [ckt_revoke_call, hdep, hown, hid] at h
  have hs : s' = (revoke s id account_id).1 := by
    rcases hrv : revoke s id account_id with ⟨s1, removed⟩
    rw [hrv] at h
    cases removed with
    | some rid =>
      simp only at h
      cases h
      rfl
    | none =>
      simp only at h
      cases h
      rfl
  refine ⟨hs, ?_, rfl⟩
  subst hs
  simp only [ckt_approval_id_for, hid]
  cases hkd : alGet id s.key_data with
  | none => simp [revoke, hkd]
  | some kd =>
    simp only [revoke, hkd]
    simp [alGet_alInsert_self, alGet_alErase_self]

/-- Closed instance of C7: alice revoke-calls bob on `sampleState`; the
returned state already answers `approval_id_for = none` and the callback
leaves it untouched. -/
theorem ckt_revoke_call_commits_before_notice_witness :
    ∃ s' notice,
      ckt_revoke_call sampleState ⟨"alice", 1⟩ "0" "bob" none
          = Except.ok (s', notice)
      ∧ ckt_approval_id_for s' "0" "bob" = Except.ok none
      ∧ ckt_revoke_callback s' = s' := by
  refine ⟨_, _, rfl, ?_⟩
  have h := ckt_revoke_call_commits_before_notice sampleState ⟨"alice", 1⟩ "0"
    "bob" none 0 rfl (by decide) (by decide) _ _ rfl
  exact ⟨h.2.1, h.2.2⟩

/-- Fresh-token state for exercising the approve-call flow: token "0" owned
by alice with no approvals yet, counter at 1. -/
def approveFlowState : NftKeyState :=
  { next_id := 1
    signer_contract_id := "signer"
    key_data := [(0, { approvals := [], key_version := 7 })]
    owners := [("0", "alice")] }

/-- State after `ckt_approve_call` granted bob approval id 1 on token "0". -/
def approveFlowGranted : NftKeyState :=
  { next_id := 2
    signer_contract_id := "signer"
    key_data := [(0, { approvals := [("bob", 1)], key_version := 7 })]
    owners := [("0", "alice")] }

/-- State after the inverted reconciliation removed bob's approval again:
like `approveFlowGranted` but with the approval map emptied. -/
def approveFlowRemoved : NftKeyState :=
  { next_id := 2
    signer_contract_id := "signer"
    key_data := [(0, { approvals := [], key_version := 7 })]
    owners := [("0", "alice")] }

/-- C2 exhibit: alice approve-calls bob (speculatively granting id 1); the
reconciliation callback, fed the receiver's explicit "not accepted" reply
`Ok(false)`, keeps the just-created approval (`approval_id_for` stays
`some 1`), while the "accepted" reply `Ok(true)` removes it
(`approval_id_for` becomes `none`) — the reverse of the specified
reconciliation. -/
theorem ckt_approve_callback_inverted_on_rejection :
    ckt_approve_call approveFlowState ⟨"alice", 1⟩ "0" "bob" none
        = Except.ok (approveFlowGranted,
            { grantor := "alice", token_id := "0", approval_id := 1, msg := "" })
    ∧ ckt_approve_callback approveFlowGranted 0 "bob" 1 (Except.ok false)
        = Except.ok (approveFlowGranted, some 1)
    ∧ ckt_approval_id_for approveFlowGranted "0" "bob" = Except.ok (some 1)
    ∧ ckt_approve_callback approveFlowGranted 0 "bob" 1 (Except.ok true)
        = Except.ok (approveFlowRemoved, none)
    ∧ ckt_approval_id_for approveFlowRemoved "0" "bob" = Except.ok none := by
  refine ⟨rfl, rfl, rfl, rfl, rfl⟩

/-- Specification of a successful `approve`: the issued approval id is the
old counter value and the counter advances by one. -/
theorem approve_ok_spec (s : NftKeyState) (token_id : Nat)
    (account_id : AccountId) (s1 : NftKeyState) (approval_id : Nat)
    (h : approve s token_id account_id = Except.ok (s1, approval_id)) :
    approval_id = s.next_id ∧ s1.next_id = s.next_id + 1 := by
  unfold approve at h
  cases hg : generate_id s with
  | error e =>
    simp only [hg] at h
    exact absurd h (by simp)
  | ok pr =>
    obtain ⟨aid, s2⟩ := pr
    obtain ⟨haid, hs2⟩ := generate_id_ok s aid s2 hg
    simp only [hg] at h
    cases hkd : alGet token_id s2.key_data with
    | none =>
      simp only [hkd] at h
      exact absurd h (by simp)
    | some kd =>
      simp only [hkd] at h
      cases h
      subst haid hs2
      exact ⟨rfl, rfl⟩

/-- Each trace operation either rejects (keeping the state) or issues exactly
the current counter value and advances the counter by one. -/
theorem runIdOp_sound (s : NftKeyState) (op : IdOp) :
    ((runIdOp s op).2 = none ∧ (runIdOp s op).1 = s)
    ∨ ∃ k, (runIdOp s op).2 = some (k, s.next_id)
        ∧ (runIdOp s op).1.next_id = s.next_id + 1 := by
  cases op with
  | mintOp env storage =>
    cases hm : mint s env storage with
    | error e => exact Or.inl ⟨by simp [runIdOp, hm], by simp [runIdOp, hm]⟩
    | ok pr =>
      obtain ⟨s1, p⟩ := pr
      obtain ⟨h1, h2, _⟩ := mint_ok_spec s env storage s1 p hm
      exact Or.inr ⟨IssuedKind.token, by simp [runIdOp, hm, h1], by simp [runIdOp, hm, h2]⟩
  | approveOp token_id account_id =>
    cases ha : approve s token_id account_id with
    | error e => exact Or.inl ⟨by simp [runIdOp, ha], by simp [runIdOp, ha]⟩
    | ok pr =>
      obtain ⟨s1, aid⟩ := pr
      obtain ⟨h1, h2⟩ := approve_ok_spec s token_id account_id s1 aid ha
      exact Or.inr ⟨IssuedKind.approval, by simp [runIdOp, ha, h1], by simp [runIdOp, ha, h2]⟩

/-- Every identifier issued along a trace is at least the starting counter
value. -/
theorem runTrace_lower_bound (ops : List IdOp) (s : NftKeyState) :
    ∀ x ∈ (runTrace s ops).2, s.next_id ≤ x.2 := by
  induction ops generalizing s with
  | nil =>
    intro x hx
    simp [runTrace] at hx
  | cons op ops ih =>
    intro x hx
    rcases runIdOp_sound s op with ⟨hnone, hst⟩ | ⟨k, hsome, hnext⟩
    · rw [show (runTrace s (op :: ops)).2 = (runTrace s ops).2 by
        simp [runTrace, hnone, hst]] at hx
      exact ih s x hx
    · rw [show (runTrace s (op :: ops)).2
          = (k, s.next_id) :: (runTrace (runIdOp s op).1 ops).2 by
        simp [runTrace, hsome]] at hx
      rcases List.mem_cons.mp hx with hx | hx
      · subst hx
        exact Nat.le_refl _
      · have hlb := ih (runIdOp s op).1 x hx
        omega

/-- The identifiers issued along any trace are strictly increasing in issue
order. -/
theorem runTrace_pairwise (ops : List IdOp) (s : NftKeyState) :
    List.Pairwise (fun a b => a.2 < b.2) (runTrace s ops).2 := by
  induction ops generalizing s with
  | nil => simp [runTrace]
  | cons op ops ih =>
    rcases runIdOp_sound s op with ⟨hnone, hst⟩ | ⟨k, hsome, hnext⟩
    · rw [show (runTrace s (op :: ops)).2 = (runTrace s ops).2 by
        simp [runTrace, hnone, hst]]
      exact ih s
    · rw [show (runTrace s (op :: ops)).2
          = (k, s.next_id) :: (runTrace (runIdOp s op).1 ops).2 by
        simp [runTrace, hsome]]
      refine List.Pairwise.cons ?_ (ih _)
      intro b hb
      have hlb := runTrace_lower_bound ops (runIdOp s op).1 b hb
      omega

/-- C8: along any interleaved trace of mints and approvals, all identifiers
the shared counter issues are strictly increasing (hence never reused); in
particular the token identifiers of the mints are strictly increasing and
pairwise distinct, and no token identifier collides with any approval
identifier issued in between. -/
theorem shared_counter_identifiers_unique (s : NftKeyState) (ops : List IdOp) :
    List.Pairwise (fun a b => a.2 < b.2) (issuedIds s ops)
    ∧ List.Pairwise (fun a b => a < b) (mintedIds s ops)
    ∧ ∀ t ∈ mintedIds s ops, ∀ a ∈ approvalIds s ops, t ≠ a := by
  have hp : List.Pairwise (fun a b => a.2 < b.2) (issuedIds s ops) :=
    runTrace_pairwise ops s
  refine ⟨hp, ?_, ?_⟩
  · exact List.pairwise_map.mpr (hp.filter _)
  · intro t ht a ha heq
    obtain ⟨x, hxmem, hxval⟩ := List.mem_map.mp ht
    obtain ⟨y, hymem, hyval⟩ := List.mem_map.mp ha
    have hxf := List.mem_filter.mp hxmem
    have hyf := List.mem_filter.mp hymem
    have hxk : x.1 = IssuedKind.token := by simpa using hxf.2
    have hyk : y.1 = IssuedKind.approval := by simpa using hyf.2
    have hxy : x ≠ y := by
      intro hxyeq
      rw [hxyeq, hyk] at hxk
      cases hxk
    have hne : List.Pairwise (fun p q : IssuedKind × Nat => p.2 ≠ q.2)
        (issuedIds s ops) := hp.imp fun h => Nat.ne_of_lt h
    have hsym : Symmetric (fun p q : IssuedKind × Nat => p.2 ≠ q.2) :=
      fun _ _ h => Ne.symm h
    exact hne.forall hsym hxf.1 hyf.1 hxy (hxval.trans (heq.trans hyval.symm))

/-- A concrete trace: mint, approve bob on token 0, mint again. -/
def traceOps : List IdOp :=
  [IdOp.mintOp ⟨"alice", 0⟩ ⟨[("alice", 100)], 10⟩,
   IdOp.approveOp 0 "bob",
   IdOp.mintOp ⟨"alice", 0⟩ ⟨[("alice", 100)], 10⟩]

/-- Closed instance of C8: from `sampleState` (counter 5) the trace issues
token 5, approval 6, token 7 — strictly increasing and collision-free. -/
theorem shared_counter_identifiers_unique_witness :
    issuedIds sampleState traceOps
        = [(IssuedKind.token, 5), (IssuedKind.approval, 6), (IssuedKind.token, 7)]
    ∧ List.Pairwise (fun a b => a.2 < b.2) (issuedIds sampleState traceOps) :=
  ⟨rfl, (shared_counter_identifiers_unique sampleState traceOps).1⟩

end NftKey
